import Mathlib

/-
Verification of the size-bounded concurrent insertion controller of the
mysql-data-generator repository.

The repository contains several near-duplicate variants of the program:
  * `main.go`                      — semaphore variant, integer substring size parsing
  * `src/unnamed/part_000`         — batch variant, integer substring size parsing
  * `src/unnamed/part_001` (first) — semaphore/retry variant ("retry variant")
  * `src/unnamed/part_001` (second)— persistent worker-pool variant ("pool variant"),
                                     fractional `fmt.Sscanf("%f%s")` size parsing

Machine integers (Go `int`, 64-bit) are modelled as `Int`, with explicit wrapping
(`wrap64`) where Go multiplication can overflow.  Go `float64` arithmetic in
`parseSize`/`formatSize` only ever handles decimal-scaled values (`m / 10^d`)
and binary-scaled quotients (`v / 2^k`), so it is modelled exactly by scaled
integer arithmetic; theorems that depend on float64 exactness carry an
explicit `< 2 ^ 53` bound.  Fallible code returns `Except`/`Option`; a Go
runtime panic is modelled as `none`.
-/

namespace DataGen

/-! ## Shared numeric and character helpers -/

/-- Go constant `OneKB = 1024` (all variants). -/
def OneKB : Int := 1024

/-- Go constant `OneMB = 1024 * 1024` (all variants). -/
def OneMB : Int := 1024 * 1024

/-- Go constant `OneGB = 1024 * 1024 * 1024` (all variants). -/
def OneGB : Int := 1024 * 1024 * 1024

/-- Characters `fmt.Sscanf`'s `%f` verb keeps consuming for the unsigned decimal
magnitudes the size strings use: digits and the decimal point. -/
def numChar (c : Char) : Bool := c.isDigit || c = '.'

/-- Value of a left-to-right digit string, as `strconv`/`fmt` accumulate it. -/
def digitsVal (cs : List Char) : Nat :=
  cs.foldl (fun a c => a * 10 + (c.toNat - 48)) 0

/-- Value of an unsigned decimal numeral `digits [ '.' digits ]`, as read by
`fmt.Sscanf`'s `%f`: `some (m, d)` means the numeral denotes exactly
`m / 10 ^ d` (model restricted to the unsigned decimals that are meaningful as
size magnitudes; signs and exponents are not modelled). -/
def decValue (cs : List Char) : Option (Nat × Nat) :=
  let ip := cs.takeWhile (fun c => c.isDigit)
  let rest := cs.dropWhile (fun c => c.isDigit)
  if ip = [] then none
  else
    match rest with
    | [] => some (digitsVal ip, 0)
    | '.' :: fs =>
        if fs.all (fun c => c.isDigit) then
          some (digitsVal ip * 10 ^ fs.length + digitsVal fs, fs.length)
        else none
    | _ => none

/-- Wrap-around of Go 64-bit signed integer arithmetic. -/
def wrap64 (x : Int) : Int := (x + 2 ^ 63) % 2 ^ 64 - 2 ^ 63

/-! ## parseSize — fractional variant (part_001 second half, lines 786-804)

```go
func (opt *GeneratorOptions) parseSize() (int, error) {
    var amount float64
    var unit string
    _, err := fmt.Sscanf(opt.size, "%f%s", &amount, &unit)
    if err != nil { return 0, err }
    switch unit {
    case "KB", "K": return int(amount * 1024), nil
    case "MB", "Mi": return int(amount * 1024 * 1024), nil
    case "GB", "Gi": return int(amount * 1024 * 1024 * 1024), nil
    default: return 0, fmt.Errorf("expected data unit to one of (KB,K, MB,Mi, GB,Gi). Found: %s", unit)
    }
}
```
`%f` consumes the maximal numeric token, `%s` skips spaces and consumes the
following non-space token.  The `switch` is rendered as an if-chain.  The
parsed magnitude `amount = m / 10^d` is carried exactly, and Go's truncating
conversion `int(amount * factor)` is `(m * factor).tdiv (10 ^ d)`. -/
def parseSizeScan (s : String) : Except String Int :=
  let cs := s.toList
  let numCs := cs.takeWhile numChar
  let rest := (cs.dropWhile numChar).dropWhile (fun c => c = ' ')
  let u := String.mk (rest.takeWhile (fun c => c ≠ ' '))
  match decValue numCs with
  | none => Except.error "input does not match format"
  | some md =>
      if u = "KB" ∨ u = "K" then
        Except.ok (((md.1 : Int) * 1024).tdiv (10 ^ md.2))
      else if u = "MB" ∨ u = "Mi" then
        Except.ok (((md.1 : Int) * (1024 * 1024)).tdiv (10 ^ md.2))
      else if u = "GB" ∨ u = "Gi" then
        Except.ok (((md.1 : Int) * (1024 * 1024 * 1024)).tdiv (10 ^ md.2))
      else Except.error ("expected data unit to one of (KB,K, MB,Mi, GB,Gi). Found: " ++ u)

/-! ## parseSize — integer substring variant (main.go lines 339-355, and the
identical function in part_000 / part_001 first half)

```go
func (opt *GeneratorOptions) parseSize() (int, error) {
    dataUnit := opt.size[len(opt.size)-2:]
    unitCount, err := strconv.Atoi(opt.size[0 : len(opt.size)-2])
    if err != nil { return 0, err }
    switch dataUnit {
    case "KB": return unitCount * 1024, nil
    ...
}
```
For `len(opt.size) < 2` the slice index is negative and the program panics with
an index-out-of-range error; the panic is modelled as `none`. -/

/-- Model of `strconv.Atoi`: optional sign, non-empty digit string, value within
the 64-bit signed range (out-of-range input yields `ErrRange`, i.e. `none`). -/
def atoi (s : String) : Option Int :=
  let cs := s.toList
  let p : Bool × List Char :=
    match cs with
    | '-' :: t => (true, t)
    | '+' :: t => (false, t)
    | t => (false, t)
  if p.2 = [] then none
  else if p.2.all (fun c => c.isDigit) then
    let v : Int := (digitsVal p.2 : Int)
    let v := if p.1 then -v else v
    if v < -(2 ^ 63) ∨ 2 ^ 63 - 1 < v then none else some v
  else none

/-- The integer substring `parseSize`.  The outer `Option` models the slice
panic on strings shorter than two characters; products carry Go's 64-bit
wrap-around. -/
def parseSizeAtoi (size : String) : Option (Except String Int) :=
  if size.length < 2 then none
  else
    let n := size.length
    let dataUnit := String.mk (size.toList.drop (n - 2))
    let numStr := String.mk (size.toList.take (n - 2))
    some (match atoi numStr with
      | none => Except.error "strconv.Atoi: parsing: invalid syntax"
      | some unitCount =>
          if dataUnit = "KB" then Except.ok (wrap64 (unitCount * 1024))
          else if dataUnit = "MB" then Except.ok (wrap64 (unitCount * (1024 * 1024)))
          else if dataUnit = "GB" then Except.ok (wrap64 (unitCount * (1024 * 1024 * 1024)))
          else Except.error ("expected data unit to one of (KB, MB, GB). Found: " ++ dataUnit))

/-! ## formatSize (identical in main.go lines 316-327 and both part_001 halves)

```go
func formatSize(size int) string {
    switch {
    case size <= OneKB: return fmt.Sprintf("%.3f B", float64(size))
    case size <= OneMB: return fmt.Sprintf("%.3f KB", float64(size)/OneKB)
    case size <= OneGB: return fmt.Sprintf("%.3f MB", float64(size)/OneMB)
    default: return fmt.Sprintf("%.3f GB", float64(size)/OneGB)
    }
}
```
`%.3f` rounds the float64 value to three decimals, ties to even; for
`|size| < 2 ^ 53` the quotient `float64(size)/2^k` is exact, so the scaled
integer model below agrees with Go exactly in that range. -/

/-- Round `a / b` (for `b > 0`) to the nearest integer, ties to even, as Go
`%.3f` formatting rounds the (exactly representable) displayed value. -/
def roundEvenDiv (a b : Int) : Int :=
  let f := a / b
  let r := a - f * b
  if 2 * r < b then f
  else if b < 2 * r then f + 1
  else if f % 2 = 0 then f else f + 1

/-- Decimal digits, least significant first: structural recursion on a fuel
bound (always sufficient, since a number is larger than its digit count). -/
def natDigitsRevAux : Nat → Nat → List Char
  | _, 0 => []
  | n, fuel + 1 =>
      if n < 10 then [Char.ofNat (48 + n)]
      else Char.ofNat (48 + n % 10) :: natDigitsRevAux (n / 10) fuel

/-- Decimal digits of a natural number, least significant first. -/
def natDigitsRev (n : Nat) : List Char := natDigitsRevAux n (n + 1)

/-- Decimal rendering of a natural number. -/
def natToDecimal (n : Nat) : String := String.mk (natDigitsRev n).reverse

/-- Three zero-padded decimal digits of `n < 1000`. -/
def pad3 (n : Nat) : String :=
  String.mk [Char.ofNat (48 + n / 100), Char.ofNat (48 + n / 10 % 10), Char.ofNat (48 + n % 10)]

/-- Go's `fmt.Sprintf("%.3f", v / u)` for the values `formatSize` produces
(the quotient is kept exact as the pair `(v, u)`, `u > 0`).  For negative
values Go renders a leading minus sign on the rounded magnitude. -/
def renderFixed3 (v u : Int) : String :=
  let m := roundEvenDiv (v * 1000) u
  if m < 0 then "-" ++ natToDecimal ((-m).toNat / 1000) ++ "." ++ pad3 ((-m).toNat % 1000)
  else natToDecimal (m.toNat / 1000) ++ "." ++ pad3 (m.toNat % 1000)

/-- The displayed magnitude (as the exact quotient pair `size / unit factor`)
and display unit `formatSize` selects — the four `switch` branches of the Go
function. -/
def formatSizeParts (size : Int) : (Int × Int) × String :=
  if size ≤ OneKB then ((size, 1), "B")
  else if size ≤ OneMB then ((size, OneKB), "KB")
  else if size ≤ OneGB then ((size, OneMB), "MB")
  else ((size, OneGB), "GB")

/-- `formatSize`: three-decimal magnitude, a space, and the selected unit. -/
def formatSize (size : Int) : String :=
  renderFixed3 (formatSizeParts size).1.1 (formatSizeParts size).1.2 ++ " " ++
    (formatSizeParts size).2

/-! ## Concurrency bound (claim C1)

Semaphore variants (main.go lines 82-109, part_001 first half lines 97-145):
the main loop performs `workerLimiter <- struct{}{}` on a buffered channel of
capacity `concurrency` before spawning each goroutine; the goroutine performs
its insert work and then `<-workerLimiter`.  A send on a full buffered channel
blocks, so at most `concurrency` goroutines hold a buffer slot at any time, and
every insert executes while its goroutine holds a slot.

The state machine counts goroutines holding a slot by phase: before their
insert, during it, and after it (before the release receive). -/

/-- Goroutines currently holding a semaphore slot, by phase. -/
structure SemState where
  preInsert : Nat
  inserting : Nat
  postInsert : Nat
deriving DecidableEq

/-- Slots of the `workerLimiter` channel currently held. -/
def SemState.tokensHeld (s : SemState) : Nat := s.preInsert + s.inserting + s.postInsert

/-- Interleaved execution steps of the semaphore variants.  `acquire` is the
buffered-channel send (blocks unless a slot is free), `release` the receive. -/
inductive SemStep (C : Nat) : SemState → SemState → Prop
  | acquire (s : SemState) : s.tokensHeld < C →
      SemStep C s ⟨s.preInsert + 1, s.inserting, s.postInsert⟩
  | beginInsert (s : SemState) : 0 < s.preInsert →
      SemStep C s ⟨s.preInsert - 1, s.inserting + 1, s.postInsert⟩
  | endInsert (s : SemState) : 0 < s.inserting →
      SemStep C s ⟨s.preInsert, s.inserting - 1, s.postInsert + 1⟩
  | release (s : SemState) : 0 < s.postInsert →
      SemStep C s ⟨s.preInsert, s.inserting, s.postInsert - 1⟩

/-- Before the main loop runs, no goroutine holds a slot. -/
def semInit : SemState := ⟨0, 0, 0⟩

/-- States the semaphore machine can reach during a run. -/
def SemReachable (C : Nat) (s : SemState) : Prop :=
  Relation.ReflTransGen (SemStep C) semInit s

/-- Worker-pool variant (part_001 second half, lines 537-560): `generateData`
spawns exactly `concurrency` goroutines, each running `insertRows`, a loop that
performs at most one insert at a time. -/
inductive WorkerPhase
  | idle
  | inserting
deriving DecidableEq

/-- One phase flag per spawned worker goroutine. -/
structure PoolState where
  workers : List WorkerPhase
deriving DecidableEq

/-- Number of in-flight inserts across the pool. -/
def PoolState.inFlight (s : PoolState) : Nat :=
  s.workers.countP (fun w => w = WorkerPhase.inserting)

/-- A single worker starts or finishes one insert. -/
inductive PoolStep : PoolState → PoolState → Prop
  | start (pre post : List WorkerPhase) :
      PoolStep ⟨pre ++ WorkerPhase.idle :: post⟩ ⟨pre ++ WorkerPhase.inserting :: post⟩
  | finish (pre post : List WorkerPhase) :
      PoolStep ⟨pre ++ WorkerPhase.inserting :: post⟩ ⟨pre ++ WorkerPhase.idle :: post⟩

/-- The controller launches exactly `C` workers, all initially idle. -/
def poolInit (C : Nat) : PoolState := ⟨List.replicate C WorkerPhase.idle⟩

/-- States the worker pool can reach during a run. -/
def PoolReachable (C : Nat) (s : PoolState) : Prop :=
  Relation.ReflTransGen PoolStep (poolInit C) s

/-! ## Worker retry loop (claim C2; part_001 first half, lines 128-136)

```go
for try := 0; try < 100; try++ {
    err := opt.insertRow(tableName)
    // only retry if too many connection
    if err != nil && strings.Contains(err.Error(), "Too many connections") {
        time.Sleep(5 * time.Second)
        continue
    }
    break
}
```
The environment is a function giving the outcome of the k-th attempt. -/

/-- Outcome of one `insertRow` attempt. -/
inductive AttemptResult
  | success
  | tooMany
  | otherErr
deriving DecidableEq

/-- The retry loop from iteration `k` on: returns the number of attempts made
and the last attempt's outcome.  Only a "Too many connections" failure loops;
any other outcome breaks. -/
def retryFrom (attempt : Nat → AttemptResult) (k : Nat) : Nat × AttemptResult :=
  match attempt k with
  | AttemptResult.tooMany =>
      if h : k + 1 < 100 then
        let r := retryFrom attempt (k + 1)
        (r.1 + 1, r.2)
      else (1, AttemptResult.tooMany)
  | r => (1, r)
termination_by 100 - k
decreasing_by omega

/-- One logical insert of a worker: the retry loop started at `try := 0`. -/
def insertWithRetry (attempt : Nat → AttemptResult) : Nat × AttemptResult :=
  retryFrom attempt 0

/-! ## Summary throughput (claim C4; part_001 lines 162 and 573)

```go
fmt.Printf("%35s: %s/s\n", "Speed", formatSize((curSize-initialSize)/int(totalTime.Seconds())))
```
Go integer division truncates toward zero and panics when the divisor is zero;
the panic is modelled as `none`.  `int(totalTime.Seconds())` is the elapsed
wall time truncated to whole seconds. -/
def summarySpeed (deltaBytes : Int) (elapsedSeconds : Int) : Option Int :=
  if elapsedSeconds = 0 then none else some (Int.tdiv deltaBytes elapsedSeconds)

/-! ## Database operation traces (claims C3, C5, C9) -/

/-- Database operations the program issues, in program order. -/
inductive DbOp
  | connect (database : String)
  | ping
  | dropDatabase (name : String)
  | createDatabase (name : String)
  | createTable (name : String)
  | checkTables (tables : List String)
  | analyzeTables (tables : List String)
  | sizeQuery (schema : String)
  | insertRow (table : String)
deriving DecidableEq

/-- Responses of the external database to a size probe. -/
structure ProbeDb where
  checkOk : Bool
  analyzeOk : Bool
  queryOk : Bool
  /-- One entry per result row; `none` is a NULL size. -/
  rows : List (Option Int)
deriving DecidableEq

/-- The row loop shared by all `getDatabaseSize` variants: return the first
non-NULL scanned size, or 0 when no row carries one. -/
def firstNonNull : List (Option Int) → Int
  | [] => 0
  | some v :: _ => v
  | none :: rest => firstNonNull rest

/-- Table names of the pool variant, `table0 .. table(N-1)` (part_001 second
half, lines 513-514 and 726-728). -/
def poolTables (tableNumber : Nat) : List String :=
  (List.range tableNumber).map (fun i => "table" ++ toString i)

/-- Table names of the retry variant, `table1 .. tableN` (part_001 first half,
lines 83-88 and 342-344). -/
def retryTables (tableNumber : Nat) : List String :=
  (List.range tableNumber).map (fun i => "table" ++ toString (i + 1))

/-- `getDatabaseSize` of the pool variant (part_001 second half, lines
719-759): CHECK TABLE, then ANALYZE TABLE, then the aggregated
`data_length + index_length` query, using the shared global connection. -/
def getDatabaseSizePool (tableNumber : Nat) (dbName : String) (db : ProbeDb) :
    List DbOp × Except String Int :=
  let ts := poolTables tableNumber
  if !db.checkOk then ([DbOp.checkTables ts], Except.error "check failed")
  else if !db.analyzeOk then
    ([DbOp.checkTables ts, DbOp.analyzeTables ts], Except.error "analyze failed")
  else if !db.queryOk then
    ([DbOp.checkTables ts, DbOp.analyzeTables ts, DbOp.sizeQuery dbName],
     Except.error "failed to execute query")
  else
    ([DbOp.checkTables ts, DbOp.analyzeTables ts, DbOp.sizeQuery dbName],
     Except.ok (firstNonNull db.rows))

/-- `getDatabaseSize` of the retry variant (part_001 first half, lines
329-376): same refresh-then-read sequence, on a fresh per-call connection. -/
def getDatabaseSizeRetry (tableNumber : Nat) (dbName : String) (db : ProbeDb) :
    List DbOp × Except String Int :=
  let ts := retryTables tableNumber
  if !db.checkOk then ([DbOp.connect dbName, DbOp.checkTables ts], Except.error "check failed")
  else if !db.analyzeOk then
    ([DbOp.connect dbName, DbOp.checkTables ts, DbOp.analyzeTables ts],
     Except.error "analyze failed")
  else if !db.queryOk then
    ([DbOp.connect dbName, DbOp.checkTables ts, DbOp.analyzeTables ts, DbOp.sizeQuery dbName],
     Except.error "failed to execute query")
  else
    ([DbOp.connect dbName, DbOp.checkTables ts, DbOp.analyzeTables ts, DbOp.sizeQuery dbName],
     Except.ok (firstNonNull db.rows))

/-- `getDatabaseSize` of main.go (lines 275-305): it opens a client and runs
the aggregated size query directly, with no statistics refresh of any kind. -/
def getDatabaseSizeMain (dbName : String) (db : ProbeDb) :
    List DbOp × Except String Int :=
  if !db.queryOk then
    ([DbOp.connect dbName, DbOp.sizeQuery dbName], Except.error "failed to execute query")
  else
    ([DbOp.connect dbName, DbOp.sizeQuery dbName], Except.ok (firstNonNull db.rows))

/-! ## generateData of the pool variant (claim C5; part_001 second half,
lines 495-577)

The run is modelled as the trace of database operations it issues together
with its result.  The external world is a `RunDb` environment; the concurrent
insertion phase is collapsed to the sequence of inserts the workers perform
before the monitor cancels them (their interleaving is irrelevant to the
trace-membership claims). -/

/-- CLI options of the pool variant (its `GeneratorOptions` struct). -/
structure GeneratorOptions where
  size : String
  host : String
  port : Nat
  user : String
  password : String
  concurrency : Nat
  tableNumber : Nat
  dbName : String
  overwrite : Bool
deriving DecidableEq

/-- Outcome of a DDL `Exec` as the program classifies it. -/
inductive ExecOutcome
  | ok
  | alreadyExists
  | fatal
deriving DecidableEq

/-- Environment of one `generateData` run. -/
structure RunDb where
  pingOk : Bool
  dropOk : Bool
  createDb : ExecOutcome
  /-- Outcome of `CREATE TABLE table{i}`. -/
  createTbl : Nat → ExecOutcome
  probe : ProbeDb
  /-- Rows the workers insert before the monitor cancels them. -/
  insertedRows : Nat
  /-- The `rand.Int()` drawn for each inserted row's table choice. -/
  tableChoice : Nat → Nat

/-- `ensureDatabase` (part_001 second half, lines 579-616): connect to the
`mysql` schema, ping, optionally drop the target database, then create it,
tolerating "database exists". -/
def ensureDatabasePool (o : GeneratorOptions) (db : RunDb) :
    List DbOp × Except String Unit :=
  if !db.pingOk then ([DbOp.connect "mysql", DbOp.ping], Except.error "ping failed")
  else if o.overwrite ∧ !db.dropOk then
    ([DbOp.connect "mysql", DbOp.ping, DbOp.dropDatabase o.dbName],
     Except.error "drop failed")
  else
    let t := [DbOp.connect "mysql", DbOp.ping]
      ++ (if o.overwrite then [DbOp.dropDatabase o.dbName] else [])
      ++ [DbOp.createDatabase o.dbName]
    match db.createDb with
    | ExecOutcome.fatal => (t, Except.error "create database failed")
    | _ => (t, Except.ok ())

/-- The `CREATE TABLE` loop of `generateData` (lines 513-522), over the listed
table indices: any error other than "already exists" aborts the run. -/
def createTablesPool (db : RunDb) : List Nat → List DbOp × Except String Unit
  | [] => ([], Except.ok ())
  | i :: rest =>
      let op := DbOp.createTable ("table" ++ toString i)
      match db.createTbl i with
      | ExecOutcome.fatal => ([op], Except.error "failed to crate table")
      | _ =>
          let r := createTablesPool db rest
          (op :: r.1, r.2)

/-- The rows the spawned workers insert until cancellation, each into
`table(rand.Int() % tableNumber)` (lines 628, 637). -/
def workerInserts (o : GeneratorOptions) (db : RunDb) : List DbOp :=
  (List.range db.insertedRows).map
    (fun r => DbOp.insertRow ("table" ++ toString (db.tableChoice r % o.tableNumber)))

/-- `generateData` of the pool variant through the insertion phase, in program
order: ensureDatabase, open the shared client, create the tables, parse the
size, take the initial probe, run the workers.  The final statistics block is
modelled separately by `summarySpeed`. -/
def generateDataPool (o : GeneratorOptions) (db : RunDb) :
    List DbOp × Except String Unit :=
  let e := ensureDatabasePool o db
  match e.2 with
  | Except.error m => (e.1, Except.error m)
  | Except.ok _ =>
      let t1 := e.1 ++ [DbOp.connect o.dbName]
      let ct := createTablesPool db (List.range o.tableNumber)
      match ct.2 with
      | Except.error m => (t1 ++ ct.1, Except.error m)
      | Except.ok _ =>
          let t2 := t1 ++ ct.1
          match parseSizeScan o.size with
          | Except.error m => (t2, Except.error m)
          | Except.ok _ =>
              let p := getDatabaseSizePool o.tableNumber o.dbName db.probe
              match p.2 with
              | Except.error m => (t2 ++ p.1, Except.error m)
              | Except.ok _ => (t2 ++ p.1 ++ workerInserts o db, Except.ok ())

/-! ## Worker failure reporting (claim C9) -/

/-- A printed per-insert failure line: the table name and the error text. -/
structure LogLine where
  table : String
  reason : String
deriving DecidableEq

/-- Environment of one pool-variant worker (part_001 second half,
`insertRows`, lines 618-643). -/
structure InsertEnv where
  /-- Iteration at which the worker observes `ctx.Done()`. -/
  cancelAt : Nat
  /-- The `rand.Int()` drawn at each iteration. -/
  tablePick : Nat → Nat
  /-- The `db.Exec` outcome at each iteration; `some e` is a failure. -/
  execErr : Nat → Option String

/-- `insertRows` from iteration `i` on: until cancellation, insert into a
random table; a failure is printed with the table name and reason and the loop
continues; on cancellation the function returns `nil`.  Returns the number of
insert attempts made, the printed failure lines, and the function's result. -/
def insertRowsFrom (tableNumber : Nat) (env : InsertEnv) (i : Nat) :
    Nat × List LogLine × Except String Unit :=
  if i < env.cancelAt then
    let t := "table" ++ toString (env.tablePick i % tableNumber)
    let rest := insertRowsFrom tableNumber env (i + 1)
    match env.execErr i with
    | some e => (rest.1 + 1, ⟨t, e⟩ :: rest.2.1, rest.2.2)
    | none => (rest.1 + 1, rest.2.1, rest.2.2)
  else (0, [], Except.ok ())
termination_by env.cancelAt - i
decreasing_by omega

/-- The failure report of a retry-variant worker (part_001 first half, lines
137-143).  After its retry loop the code runs

```go
if err != nil {
    fmt.Printf("Failed to insert a row in table: %q. Reason: %v.\n", tableName, err)
}
```

but the `err` assigned inside the loop (`err := opt.insertRow(tableName)`) is
scoped to the loop body; this `err` is the captured `generateData` variable,
which is `nil` once the run reaches the worker loop.  The check therefore
tests `outerErr`, not the insert's outcome. -/
def retryWorkerLogs (outerErr : Option String) (tableName : String)
    (attempt : Nat → AttemptResult) : List LogLine :=
  let _ := insertWithRetry attempt
  match outerErr with
  | some e => [⟨tableName, e⟩]
  | none => []

/-! ## Round-trip slack (claim C7)

Re-parsing `formatSize v` recovers `v` only up to the three-decimal rounding of
the displayed magnitude: half a thousandth of the display unit, plus one byte
of truncation. -/

/-- Worst-case distance, in bytes, between `v > 1024` and the value obtained by
re-parsing its formatted rendering: `⌊U / 2000⌋ + 1` for display unit `U`. -/
def roundTripSlack (v : Int) : Nat :=
  if v ≤ OneMB then 1 else if v ≤ OneGB then 525 else 536871

/-! ## Concrete run configurations used by the witnesses -/

/-- Attempt sequence of the spec's Scenario D: connection exhaustion on the
first 99 attempts, success on the 100th. -/
def scenarioDAttempts : Nat → AttemptResult :=
  fun j => if j < 99 then AttemptResult.tooMany else AttemptResult.success

/-- An insert whose first attempt fails with a non-retryable error. -/
def otherErrAttempts : Nat → AttemptResult := fun _ => AttemptResult.otherErr

/-- The spec's Scenario B options: malformed unit, two tables, one worker. -/
def scenarioBOpts : GeneratorOptions :=
  { size := "10XB", host := "localhost", port := 3306, user := "root",
    password := "", concurrency := 1, tableNumber := 2, dbName := "sampleData",
    overwrite := false }

/-- A healthy, initially empty database environment. -/
def healthyRunDb : RunDb :=
  { pingOk := true, dropOk := true, createDb := ExecOutcome.ok,
    createTbl := fun _ => ExecOutcome.ok,
    probe := { checkOk := true, analyzeOk := true, queryOk := true, rows := [none] },
    insertedRows := 3, tableChoice := fun r => r }

/-- A worker environment with a failing second insert, cancelled after three
iterations. -/
def exInsertEnv : InsertEnv :=
  { cancelAt := 3, tablePick := fun r => r,
    execErr := fun i => if i = 1 then some "duplicate entry" else none }

/-- The unit suffixes the fractional `parseSize` accepts, with their binary
factors — the `switch` cases of part_001 lines 794-801. -/
def unitPairsScan : List (String × Int) :=
  [("K", 1024), ("KB", 1024), ("Mi", 1024 * 1024), ("MB", 1024 * 1024),
   ("Gi", 1024 * 1024 * 1024), ("GB", 1024 * 1024 * 1024)]

/-! # Theorems -/

/-! ## Claim C1 — the concurrency bound -/

/-- Every reachable state of the semaphore machine holds at most `C` channel
slots, and only slot holders run inserts. -/
theorem semReachable_bound (C : Nat) (s : SemState) (h : SemReachable C s) :
    s.tokensHeld ≤ C := by
  induction h with
  | refl => simp [semInit, SemState.tokensHeld]
  | tail _ hstep ih =>
      cases hstep with
      | acquire ht => simp only [SemState.tokensHeld] at *; omega
      | beginInsert ht => simp only [SemState.tokensHeld] at *; omega
      | endInsert ht => simp only [SemState.tokensHeld] at *; omega
      | release ht => simp only [SemState.tokensHeld] at *; omega

/-- The worker pool never gains or loses workers. -/
theorem poolReachable_length (C : Nat) (s : PoolState) (h : PoolReachable C s) :
    s.workers.length = C := by
  induction h with
  | refl => simp [poolInit]
  | tail _ hstep ih =>
      cases hstep with
      | start pre post => simpa using ih
      | finish pre post => simpa using ih

/-- C1: for every configured concurrency value `C ≥ 1`, at no reachable point
during a run does the number of simultaneously in-flight inserts exceed `C`.
In the semaphore variants (main.go, part_001 first half) at most `C`
goroutines hold a `workerLimiter` slot and inserts run only under a held slot;
in the worker-pool variant (part_001 second half) exactly `C` persistent
workers exist and each runs at most one insert at a time. -/
theorem concurrency_bound (C : Nat) (hC : 1 ≤ C) (s : SemState) (t : PoolState)
    (hs : SemReachable C s) (ht : PoolReachable C t) :
    s.inserting ≤ C ∧ t.workers.length = C ∧ t.inFlight ≤ C := by
  refine ⟨?_, poolReachable_length C t ht, ?_⟩
  · have := semReachable_bound C s hs
    simp only [SemState.tokensHeld] at this
    omega
  · have hl := poolReachable_length C t ht
    calc t.inFlight ≤ t.workers.length := List.countP_le_length _
      _ = C := hl

/-- Witness for C1 at `C = 2`: a reachable semaphore state with one goroutine
mid-insert and one pre-insert, and a reachable pool state with one of the two
workers inserting. -/
theorem concurrency_bound_witness :
    (⟨1, 1, 0⟩ : SemState).inserting ≤ 2 ∧
      (⟨[WorkerPhase.inserting, WorkerPhase.idle]⟩ : PoolState).workers.length = 2 ∧
      (⟨[WorkerPhase.inserting, WorkerPhase.idle]⟩ : PoolState).inFlight ≤ 2 := by
  have h1 : SemStep 2 semInit ⟨1, 0, 0⟩ := SemStep.acquire semInit (by decide)
  have h2 : SemStep 2 ⟨1, 0, 0⟩ ⟨0, 1, 0⟩ := SemStep.beginInsert ⟨1, 0, 0⟩ (by decide)
  have h3 : SemStep 2 ⟨0, 1, 0⟩ ⟨1, 1, 0⟩ := SemStep.acquire ⟨0, 1, 0⟩ (by decide)
  have hs : SemReachable 2 ⟨1, 1, 0⟩ :=
    Relation.ReflTransGen.tail
      (Relation.ReflTransGen.tail
        (Relation.ReflTransGen.tail Relation.ReflTransGen.refl h1) h2) h3
  have hp1 : PoolStep (poolInit 2) ⟨[WorkerPhase.inserting, WorkerPhase.idle]⟩ := by
    have h := PoolStep.start ([] : List WorkerPhase) [WorkerPhase.idle]
    simpa [poolInit] using h
  have ht : PoolReachable 2 ⟨[WorkerPhase.inserting, WorkerPhase.idle]⟩ :=
    Relation.ReflTransGen.tail Relation.ReflTransGen.refl hp1
  exact concurrency_bound 2 (by decide) _ _ hs ht

/-! ## Claim C2 — the retry policy -/

/-- The retry loop started at iteration `k` makes at most `n` attempts when at
most `n` loop iterations remain. -/
theorem retryFrom_attempts_le (n : Nat) : ∀ (a : Nat → AttemptResult) (k : Nat),
    100 ≤ k + n → 1 ≤ n → (retryFrom a k).1 ≤ n := by
  induction n with
  | zero => intro a k _ h1; omega
  | succ m ih =>
      intro a k h _
      rw [retryFrom]
      cases hA : a k with
      | tooMany =>
          simp only
          split
          · next hk =>
              have hr := ih a (k + 1) (by omega) (by omega)
              simpa using by omega
          · simp
      | success => simp
      | otherErr => simp

/-- If every attempt from `k` to 98 hits connection exhaustion and attempt 99
succeeds, the loop started at `k` makes all remaining attempts and ends in
success. -/
theorem retryFrom_scenarioD (a : Nat → AttemptResult)
    (hpre : ∀ j, j < 99 → a j = AttemptResult.tooMany)
    (h99 : a 99 = AttemptResult.success) :
    ∀ d k, k + d = 99 → retryFrom a k = (d + 1, AttemptResult.success) := by
  intro d
  induction d with
  | zero =>
      intro k hk
      have hk99 : k = 99 := by omega
      subst hk99
      rw [retryFrom, h99]
  | succ m ih =>
      intro k hk
      have hak : a k = AttemptResult.tooMany := hpre k (by omega)
      rw [retryFrom, hak]
      simp only
      rw [dif_pos (by omega), ih (k + 1) (by omega)]

/-- C2: a worker's logical insert makes at most 100 attempts; only a "Too many
connections" failure is retried (any other first outcome ends the loop at one
attempt with that outcome); and an insert that hits connection exhaustion on
attempts 1-99 and succeeds on attempt 100 ends in success after exactly 100
attempts — the worker then proceeds and the run is not aborted (the loop
returns normally in every case). -/
theorem worker_retry_policy (a b : Nat → AttemptResult)
    (hpre : ∀ j, j < 99 → a j = AttemptResult.tooMany)
    (h99 : a 99 = AttemptResult.success)
    (hb : b 0 ≠ AttemptResult.tooMany) :
    insertWithRetry a = (100, AttemptResult.success) ∧
    (∀ c : Nat → AttemptResult, (insertWithRetry c).1 ≤ 100) ∧
    insertWithRetry b = (1, b 0) := by
  refine ⟨?_, ?_, ?_⟩
  · have := retryFrom_scenarioD a hpre h99 99 0 (by omega)
    simpa [insertWithRetry] using this
  · intro c
    exact retryFrom_attempts_le 100 c 0 (by omega) (by omega)
  · rw [insertWithRetry, retryFrom]
    cases hB : b 0 with
    | tooMany => exact absurd hB hb
    | success => simp
    | otherErr => simp

/-- Witness for C2: the Scenario D attempt sequence and a first-attempt
non-retryable failure. -/
theorem worker_retry_policy_witness :
    insertWithRetry scenarioDAttempts = (100, AttemptResult.success) ∧
    (∀ c : Nat → AttemptResult, (insertWithRetry c).1 ≤ 100) ∧
    insertWithRetry otherErrAttempts = (1, otherErrAttempts 0) := by
  refine worker_retry_policy scenarioDAttempts otherErrAttempts ?_ ?_ ?_
  · intro j hj
    simp [scenarioDAttempts, hj]
  · simp [scenarioDAttempts]
  · decide

/-! ## Claim C4 — summary throughput division -/

/-- C4 (code bug): the end-of-run summary computes
`(curSize-initialSize)/int(totalTime.Seconds())` with no guard; when the
elapsed wall time truncates to 0 seconds the division panics (modelled as
`none`) instead of printing a throughput.  The claim's guard does not exist in
the code. -/
theorem summary_speed_division_by_zero :
    summarySpeed (5 * 1024 * 1024) 0 = none ∧ summarySpeed (5 * 1024 * 1024) 2 = some (5 * 512 * 1024) := by
  constructor
  · rfl
  · rfl

/-! ## Claim C10 — parseSize panics on strings shorter than two characters -/

/-- C10: the substring `parseSize` is total only on strings of length at least
two: the empty string and any one-character string make the suffix slice panic
(`none`), not return a malformed-size error, while every string of length at
least two produces a non-panicking result. -/
theorem parseSize_short_input_panics :
    parseSizeAtoi "" = none ∧ parseSizeAtoi "B" = none ∧
    ∀ s : String, 2 ≤ s.length → (parseSizeAtoi s).isSome = true := by
  refine ⟨rfl, rfl, ?_⟩
  intro s hs
  have hns : ¬ s.length < 2 := by omega
  simp only [parseSizeAtoi, if_neg hns]
  cases atoi (String.mk (s.toList.take (s.length - 2))) <;> simp

/-- Witness for C10: a two-or-more character size string does not panic. -/
theorem parseSize_short_input_panics_witness :
    (parseSizeAtoi "10KB").isSome = true ∧ parseSizeAtoi "" = none :=
  ⟨parseSize_short_input_panics.2.2 "10KB" (by decide),
   parseSize_short_input_panics.1⟩

/-! ## Claim C3 — statistics refresh before every size read -/

/-- The row loop yields 0 when every returned row has a NULL size. -/
theorem firstNonNull_of_null (rows : List (Option Int))
    (h : ∀ o ∈ rows, o = none) : firstNonNull rows = 0 := by
  induction rows with
  | nil => rfl
  | cons o rest ih =>
      have ho := h o (List.mem_cons_self o rest)
      subst ho
      exact ih (fun o ho => h o (List.mem_cons_of_mem _ ho))

/-- C3 counterexample: the size probe of main.go (`getDatabaseSize`, lines
275-305) issues no CHECK TABLE and no ANALYZE TABLE — its whole trace is the
connection and the aggregated size query — so the claim's "this
refresh-before-read holds for every invocation of the probe in the program" is
false at this invocation.  (It does return 0 with no error on a NULL/absent
size.) -/
theorem main_probe_has_no_refresh :
    getDatabaseSizeMain "demodata" ⟨true, true, true, []⟩ =
      ([DbOp.connect "demodata", DbOp.sizeQuery "demodata"], Except.ok 0) ∧
    ((getDatabaseSizeMain "demodata" ⟨true, true, true, []⟩).1.countP
      (fun op => match op with
        | DbOp.checkTables _ => true
        | DbOp.analyzeTables _ => true
        | _ => false)) = 0 := by
  constructor
  · rfl
  · rfl

/-- C3 amended: in both part_001 variants every `getDatabaseSize` invocation
refreshes statistics — CHECK TABLE over all configured tables, then ANALYZE
TABLE — before the aggregated size query (the CHECK is always the probe's
first database operation), and the probe returns 0 with no error when the
query yields no row or a NULL size.  The main.go probe returns 0 on no
row/NULL as well but performs no refresh. -/
theorem probe_refreshes_before_read (tn : Nat) (dbName : String) (db : ProbeDb)
    (hc : db.checkOk = true) (ha : db.analyzeOk = true) (hq : db.queryOk = true)
    (hnull : ∀ o ∈ db.rows, o = none) :
    (getDatabaseSizePool tn dbName db).1 =
      [DbOp.checkTables (poolTables tn), DbOp.analyzeTables (poolTables tn),
       DbOp.sizeQuery dbName] ∧
    (getDatabaseSizePool tn dbName db).2 = Except.ok 0 ∧
    (getDatabaseSizeRetry tn dbName db).1 =
      [DbOp.connect dbName, DbOp.checkTables (retryTables tn),
       DbOp.analyzeTables (retryTables tn), DbOp.sizeQuery dbName] ∧
    (getDatabaseSizeRetry tn dbName db).2 = Except.ok 0 ∧
    (∀ db2 : ProbeDb, (getDatabaseSizePool tn dbName db2).1.head? =
      some (DbOp.checkTables (poolTables tn))) := by
  refine ⟨?_, ?_, ?_, ?_, ?_⟩
  · simp [getDatabaseSizePool, hc, ha, hq]
  · simp [getDatabaseSizePool, hc, ha, hq, firstNonNull_of_null db.rows hnull]
  · simp [getDatabaseSizeRetry, hc, ha, hq]
  · simp [getDatabaseSizeRetry, hc, ha, hq, firstNonNull_of_null db.rows hnull]
  · intro db2
    rcases db2 with ⟨c2, a2, q2, r2⟩
    cases c2 <;> cases a2 <;> cases q2 <;> simp [getDatabaseSizePool]

/-- Witness for C3 (amended) on one table and a single NULL row. -/
theorem probe_refreshes_before_read_witness :
    (getDatabaseSizePool 1 "demodata" ⟨true, true, true, [none]⟩).1 =
      [DbOp.checkTables (poolTables 1), DbOp.analyzeTables (poolTables 1),
       DbOp.sizeQuery "demodata"] ∧
    (getDatabaseSizePool 1 "demodata" ⟨true, true, true, [none]⟩).2 = Except.ok 0 ∧
    (getDatabaseSizeRetry 1 "demodata" ⟨true, true, true, [none]⟩).1 =
      [DbOp.connect "demodata", DbOp.checkTables (retryTables 1),
       DbOp.analyzeTables (retryTables 1), DbOp.sizeQuery "demodata"] ∧
    (getDatabaseSizeRetry 1 "demodata" ⟨true, true, true, [none]⟩).2 = Except.ok 0 ∧
    (∀ db2 : ProbeDb, (getDatabaseSizePool 1 "demodata" db2).1.head? =
      some (DbOp.checkTables (poolTables 1))) :=
  probe_refreshes_before_read 1 "demodata" ⟨true, true, true, [none]⟩ rfl rfl rfl
    (by intro o ho; simpa using ho)

/-! ## Claim C5 — malformed size strings and provisioning order -/

/-- C5 counterexample (the spec's Scenario B): with `size="10XB"` against a
healthy database, the pool variant's run does fail with the malformed-size
error, but only after connecting, pinging, creating the database and creating
both tables — `generateData` calls `ensureDatabase` and the table-creation
loop before `parseSize` — so "before any database connection is attempted" is
false. -/
theorem malformed_size_fails_after_provisioning :
    (generateDataPool scenarioBOpts healthyRunDb).2 =
      Except.error "expected data unit to one of (KB,K, MB,Mi, GB,Gi). Found: XB" ∧
    (generateDataPool scenarioBOpts healthyRunDb).1 =
      [DbOp.connect "mysql", DbOp.ping, DbOp.createDatabase "sampleData",
       DbOp.connect "sampleData", DbOp.createTable "table0", DbOp.createTable "table1"] ∧
    DbOp.ping ∈ (generateDataPool scenarioBOpts healthyRunDb).1 := by
  refine ⟨?_, ?_, ?_⟩
  · rfl
  · rfl
  · decide

/-- The table-creation loop succeeds and emits only CREATE TABLE operations
when no table creation fails fatally. -/
theorem createTablesPool_ok (db : RunDb) (l : List Nat)
    (h : ∀ i ∈ l, db.createTbl i ≠ ExecOutcome.fatal) :
    (createTablesPool db l).2 = Except.ok () ∧
    ∀ t, DbOp.insertRow t ∉ (createTablesPool db l).1 := by
  induction l with
  | nil => exact ⟨rfl, by intro t; simp [createTablesPool]⟩
  | cons i rest ih =>
      have hi := h i (List.mem_cons_self i rest)
      have ihr := ih (fun j hj => h j (List.mem_cons_of_mem _ hj))
      cases hCT : db.createTbl i with
      | fatal => exact absurd hCT hi
      | ok =>
          refine ⟨by simp [createTablesPool, hCT, ihr.1], ?_⟩
          intro t
          simp only [createTablesPool, hCT, List.mem_cons]
          rintro (h1 | h2)
          · exact DbOp.noConfusion h1
          · exact ihr.2 t h2
      | alreadyExists =>
          refine ⟨by simp [createTablesPool, hCT, ihr.1], ?_⟩
          intro t
          simp only [createTablesPool, hCT, List.mem_cons]
          rintro (h1 | h2)
          · exact DbOp.noConfusion h1
          · exact ihr.2 t h2

/-- C5 amended: a malformed size string makes the run abort with the
malformed-size parse error before any worker is started and before any row is
inserted — but after the database connection, ping and schema provisioning,
which `generateData` performs before calling `parseSize`. -/
theorem malformed_size_aborts_before_any_insert (o : GeneratorOptions) (db : RunDb)
    (m : String) (hp : parseSizeScan o.size = Except.error m)
    (hping : db.pingOk = true) (hdrop : db.dropOk = true)
    (hcd : db.createDb ≠ ExecOutcome.fatal)
    (hct : ∀ i, db.createTbl i ≠ ExecOutcome.fatal) :
    (generateDataPool o db).2 = Except.error m ∧
    ∀ t, DbOp.insertRow t ∉ (generateDataPool o db).1 := by
  have hens : (ensureDatabasePool o db).2 = Except.ok () ∧
      ∀ t, DbOp.insertRow t ∉ (ensureDatabasePool o db).1 := by
    cases hCD : db.createDb with
    | fatal => exact absurd hCD hcd
    | ok =>
        constructor
        · simp [ensureDatabasePool, hping, hdrop, hCD]
        · intro t
          simp [ensureDatabasePool, hping, hdrop, hCD]
    | alreadyExists =>
        constructor
        · simp [ensureDatabasePool, hping, hdrop, hCD]
        · intro t
          simp [ensureDatabasePool, hping, hdrop, hCD]
  have htab := createTablesPool_ok db (List.range o.tableNumber)
    (fun i _ => hct i)
  constructor
  · simp only [generateDataPool]
    rw [hens.1.symm]
    cases hE : (ensureDatabasePool o db).2 with
    | error e => rw [hens.1] at hE; exact Except.noConfusion hE
    | ok u =>
        simp only
        cases hT : (createTablesPool db (List.range o.tableNumber)).2 with
        | error e => rw [htab.1] at hT; exact Except.noConfusion hT
        | ok u2 => simp [hp]
  · intro t
    simp only [generateDataPool]
    cases hE : (ensureDatabasePool o db).2 with
    | error e => rw [htab.1] at *; rw [hens.1] at hE; exact Except.noConfusion hE
    | ok u =>
        simp only
        cases hT : (createTablesPool db (List.range o.tableNumber)).2 with
        | error e => rw [htab.1] at hT; exact Except.noConfusion hT
        | ok u2 =>
            simp only [hp, List.mem_append, List.mem_cons]
            rintro ((h1 | h2) | h3)
            · exact hens.2 t h1
            · rcases h2 with h2 | h2
              · exact DbOp.noConfusion h2
              · simp at h2
            · exact htab.2 t h3

/-- Witness for C5 (amended) at the Scenario B configuration. -/
theorem malformed_size_aborts_before_any_insert_witness :
    (generateDataPool scenarioBOpts healthyRunDb).2 =
      Except.error "expected data unit to one of (KB,K, MB,Mi, GB,Gi). Found: XB" ∧
    DbOp.insertRow "table0" ∉ (generateDataPool scenarioBOpts healthyRunDb).1 := by
  have h := malformed_size_aborts_before_any_insert scenarioBOpts healthyRunDb
    "expected data unit to one of (KB,K, MB,Mi, GB,Gi). Found: XB"
    rfl rfl rfl (by decide) (fun i => by simp [healthyRunDb])
  exact ⟨h.1, h.2 "table0"⟩

/-! ## Claim C9 — containment and reporting of insert failures -/

/-- A pool-variant worker always returns `nil` once cancelled, regardless of
how many of its inserts failed. -/
theorem insertRowsFrom_result (tn : Nat) (env : InsertEnv) :
    ∀ d i, env.cancelAt - i ≤ d → (insertRowsFrom tn env i).2.2 = Except.ok () := by
  intro d
  induction d with
  | zero =>
      intro i h
      rw [insertRowsFrom, if_neg (by omega)]
  | succ m ih =>
      intro i h
      rw [insertRowsFrom]
      split
      · next hi =>
          have hr := ih (i + 1) (by omega)
          cases hE : env.execErr i <;> simp [hE, hr]
      · rfl

/-- A pool-variant worker performs one insert attempt per loop iteration until
cancellation, failures included. -/
theorem insertRowsFrom_attempts (tn : Nat) (env : InsertEnv) :
    ∀ d i, env.cancelAt - i ≤ d → (insertRowsFrom tn env i).1 = env.cancelAt - i := by
  intro d
  induction d with
  | zero =>
      intro i h
      rw [insertRowsFrom, if_neg (by omega)]
      omega
  | succ m ih =>
      intro i h
      rw [insertRowsFrom]
      split
      · next hi =>
          have hr := ih (i + 1) (by omega)
          cases hE : env.execErr i <;> simp [hE, hr] <;> omega
      · next hi => simp; omega

/-- Every failing insert of a pool-variant worker is printed with its table
name and reason. -/
theorem insertRowsFrom_logs (tn : Nat) (env : InsertEnv) (j : Nat) (e : String)
    (hj : j < env.cancelAt) (he : env.execErr j = some e) :
    ∀ d i, j - i ≤ d → i ≤ j →
      (⟨"table" ++ toString (env.tablePick j % tn), e⟩ : LogLine) ∈
        (insertRowsFrom tn env i).2.1 := by
  intro d
  induction d with
  | zero =>
      intro i h hij
      have hi : i = j := by omega
      subst hi
      rw [insertRowsFrom, if_pos hj]
      simp [he]
  | succ m ih =>
      intro i h hij
      by_cases hij2 : i = j
      · subst hij2
        rw [insertRowsFrom, if_pos hj]
        simp [he]
      · have hi : i < env.cancelAt := by omega
        rw [insertRowsFrom, if_pos hi]
        have hr := ih (i + 1) (by omega) (by omega)
        cases hE : env.execErr i <;> simp [hE, hr]

/-- C9 (code bug): in the pool variant (`insertRows`, part_001 second half) a
failing insert is printed with its table name and reason, the worker's loop
continues through every remaining iteration, and the worker returns `nil` —
failures are contained and siblings (separate `insertRows` calls) are
untouched.  In the retry variant (part_001 first half, lines 128-143), though,
the post-loop failure check reads the shadowed outer `err` of `generateData`
(which is `nil` by then), so an insert whose every attempt fails with a
non-retryable error produces no failure line at all, contradicting the claim's
"the failure is printed with the table name and the underlying reason". -/
theorem worker_failure_reporting (tn : Nat) (env : InsertEnv) (j : Nat) (e : String)
    (hj : j < env.cancelAt) (he : env.execErr j = some e) :
    (⟨"table" ++ toString (env.tablePick j % tn), e⟩ : LogLine) ∈
      (insertRowsFrom tn env 0).2.1 ∧
    (insertRowsFrom tn env 0).2.2 = Except.ok () ∧
    (insertRowsFrom tn env 0).1 = env.cancelAt ∧
    (insertWithRetry otherErrAttempts).2 = AttemptResult.otherErr ∧
    retryWorkerLogs none "table1" otherErrAttempts = [] := by
  refine ⟨insertRowsFrom_logs tn env j e hj he (j + 1) 0 (by omega) (by omega),
    insertRowsFrom_result tn env env.cancelAt 0 (by omega), ?_, ?_, rfl⟩
  · have h := insertRowsFrom_attempts tn env env.cancelAt 0 (by omega)
    simpa using h
  · rw [insertWithRetry, retryFrom]
    rfl

/-- Witness for C9: two tables, cancellation after three iterations, second
insert failing with a duplicate-entry error. -/
theorem worker_failure_reporting_witness :
    (⟨"table" ++ toString (exInsertEnv.tablePick 1 % 2), "duplicate entry"⟩ : LogLine) ∈
      (insertRowsFrom 2 exInsertEnv 0).2.1 ∧
    (insertRowsFrom 2 exInsertEnv 0).2.2 = Except.ok () ∧
    (insertRowsFrom 2 exInsertEnv 0).1 = exInsertEnv.cancelAt ∧
    (insertWithRetry otherErrAttempts).2 = AttemptResult.otherErr ∧
    retryWorkerLogs none "table1" otherErrAttempts = [] :=
  worker_failure_reporting 2 exInsertEnv 1 "duplicate entry" (by decide) (by decide)

/-! ## Claim C8 — formatSize unit selection and output shape -/

/-- A character built from a digit value is a decimal digit with that value. -/
theorem char_ofNat_digit (d : Nat) (h : d < 10) :
    (Char.ofNat (48 + d)).isDigit = true ∧ (Char.ofNat (48 + d)).toNat - 48 = d := by
  interval_cases d <;> exact ⟨by decide, by decide⟩

/-- Decimal digits are not a minus sign. -/
theorem isDigit_ne_dash (c : Char) (h : c.isDigit = true) : c ≠ '-' := by
  intro hc
  subst hc
  exact absurd h (by decide)

/-- Every character `natDigitsRevAux` emits is a decimal digit. -/
theorem natDigitsRevAux_digits (fuel : Nat) :
    ∀ n, ∀ c ∈ natDigitsRevAux n fuel, c.isDigit = true := by
  induction fuel with
  | zero => intro n c hc; cases hc
  | succ f ih =>
      intro n c hc
      rw [natDigitsRevAux] at hc
      split at hc
      · next h =>
          simp only [List.mem_singleton] at hc
          subst hc
          exact (char_ofNat_digit n h).1
      · next h =>
          simp only [List.mem_cons] at hc
          rcases hc with hc | hc
          · subst hc
            exact (char_ofNat_digit (n % 10) (by omega)).1
          · exact ih (n / 10) c hc

/-- Every character `natDigitsRev` emits is a decimal digit. -/
theorem natDigitsRev_digits (n : Nat) : ∀ c ∈ natDigitsRev n, c.isDigit = true :=
  natDigitsRevAux_digits (n + 1) n

/-- Every character of `pad3 k` is a decimal digit when `k < 1000`. -/
theorem pad3_digits (k : Nat) (hk : k < 1000) : ∀ c ∈ (pad3 k).toList, c.isDigit = true := by
  intro c hc
  have hc2 : c ∈ [Char.ofNat (48 + k / 100), Char.ofNat (48 + k / 10 % 10),
      Char.ofNat (48 + k % 10)] := hc
  simp only [List.mem_cons, List.not_mem_nil, or_false] at hc2
  rcases hc2 with hc2 | hc2 | hc2 <;> subst hc2 <;> exact (char_ofNat_digit _ (by omega)).1

/-- `roundEvenDiv` of a nonnegative dividend and positive divisor is
nonnegative. -/
theorem roundEvenDiv_nonneg (a b : Int) (ha : 0 ≤ a) (hb : 0 < b) :
    0 ≤ roundEvenDiv a b := by
  have hf : (0 : Int) ≤ a / b := Int.ediv_nonneg ha (le_of_lt hb)
  simp only [roundEvenDiv]
  split_ifs <;> omega

/-- For a nonnegative displayed value the rendering is integer digits, a
point, and three fractional digits — no sign. -/
theorem renderFixed3_of_nonneg (v u : Int) (hv : 0 ≤ v) (hu : 0 < u) :
    renderFixed3 v u =
      natToDecimal ((roundEvenDiv (v * 1000) u).toNat / 1000) ++ "." ++
        pad3 ((roundEvenDiv (v * 1000) u).toNat % 1000) := by
  have h0 : 0 ≤ roundEvenDiv (v * 1000) u :=
    roundEvenDiv_nonneg _ _ (mul_nonneg hv (by norm_num)) hu
  simp only [renderFixed3]
  rw [if_neg (by omega)]

/-- C8: for every nonnegative byte count `n`, `formatSize` picks its display
unit by the `size <= threshold` rule — B for `n ≤ 1024`, KB for
`1024 < n ≤ 1024²`, MB for `1024² < n ≤ 1024³`, GB beyond — formats the
magnitude with three decimal places, the displayed magnitude is nonnegative,
the unit is always one of B/KB/MB/GB, and the output contains no minus
sign. -/
theorem formatSize_unit_selection (n : Int) (hn : 0 ≤ n) :
    (n ≤ 1024 → (formatSizeParts n).2 = "B") ∧
    (1024 < n → n ≤ 1024 ^ 2 → (formatSizeParts n).2 = "KB") ∧
    (1024 ^ 2 < n → n ≤ 1024 ^ 3 → (formatSizeParts n).2 = "MB") ∧
    (1024 ^ 3 < n → (formatSizeParts n).2 = "GB") ∧
    (0 ≤ (formatSizeParts n).1.1 ∧ 0 < (formatSizeParts n).1.2) ∧
    (formatSizeParts n).2 ∈ ["B", "KB", "MB", "GB"] ∧
    (∃ a k, k < 1000 ∧
      formatSize n = natToDecimal a ++ "." ++ pad3 k ++ " " ++ (formatSizeParts n).2) ∧
    '-' ∉ (formatSize n).toList := by
  have hOneMB : OneMB = 1024 ^ 2 := by decide
  have hOneGB : OneGB = 1024 ^ 3 := by decide
  have hmag : 0 ≤ (formatSizeParts n).1.1 ∧ 0 < (formatSizeParts n).1.2 := by
    simp only [formatSizeParts]
    split_ifs <;> refine ⟨hn, ?_⟩ <;> norm_num [OneKB, OneMB, OneGB]
  have hrender := renderFixed3_of_nonneg (formatSizeParts n).1.1 (formatSizeParts n).1.2
    hmag.1 hmag.2
  refine ⟨?_, ?_, ?_, ?_, hmag, ?_, ?_, ?_⟩
  · intro h
    rw [formatSizeParts, if_pos (show n ≤ OneKB from h)]
  · intro h1 h2
    rw [formatSizeParts, if_neg (by simp only [OneKB]; omega),
      if_pos (by rw [hOneMB]; exact h2)]
  · intro h1 h2
    rw [formatSizeParts, if_neg (by simp only [OneKB]; omega),
      if_neg (by rw [hOneMB]; omega), if_pos (by rw [hOneGB]; exact h2)]
  · intro h1
    rw [formatSizeParts, if_neg (by simp only [OneKB]; omega),
      if_neg (by rw [hOneMB]; omega), if_neg (by rw [hOneGB]; omega)]
  · simp only [formatSizeParts]
    split_ifs <;> simp
  · refine ⟨(roundEvenDiv ((formatSizeParts n).1.1 * 1000) (formatSizeParts n).1.2).toNat / 1000,
      (roundEvenDiv ((formatSizeParts n).1.1 * 1000) (formatSizeParts n).1.2).toNat % 1000,
      by omega, ?_⟩
    rw [formatSize, hrender]
  · rw [formatSize, hrender]
    intro hmem
    have hu4 : (formatSizeParts n).2 = "B" ∨ (formatSizeParts n).2 = "KB" ∨
        (formatSizeParts n).2 = "MB" ∨ (formatSizeParts n).2 = "GB" := by
      simp only [formatSizeParts]
      split_ifs <;> simp
    have hunit : ∀ c ∈ ((formatSizeParts n).2).toList, c ≠ '-' := by
      rcases hu4 with h | h | h | h <;> rw [h] <;> decide
    simp only [String.toList, String.data_append] at hmem
    rcases List.mem_append.mp hmem with hmem | hmem
    · rcases List.mem_append.mp hmem with hmem | hmem
      · rcases List.mem_append.mp hmem with hmem | hmem
        · rcases List.mem_append.mp hmem with hmem | hmem
          · have hd : ('-' : Char).isDigit = true := by
              have hall := natDigitsRev_digits
                ((roundEvenDiv ((formatSizeParts n).1.1 * 1000) (formatSizeParts n).1.2).toNat / 1000)
              have hm : ('-' : Char) ∈
                  (natDigitsRev ((roundEvenDiv ((formatSizeParts n).1.1 * 1000)
                    (formatSizeParts n).1.2).toNat / 1000)).reverse := by
                simpa [natToDecimal] using hmem
              exact hall _ (List.mem_reverse.mp hm)
            exact absurd hd (by decide)
          · simp at hmem
        · have hd := pad3_digits
            ((roundEvenDiv ((formatSizeParts n).1.1 * 1000) (formatSizeParts n).1.2).toNat % 1000)
            (by omega) '-' (by simpa [String.toList] using hmem)
          exact absurd hd (by decide)
      · simp at hmem
    · exact hunit '-' (by simpa [String.toList] using hmem) rfl

/-- Witness for C8 at `n = 2048`. -/
theorem formatSize_unit_selection_witness :
    ((2048 : Int) ≤ 1024 → (formatSizeParts 2048).2 = "B") ∧
    ((1024 : Int) < 2048 → (2048 : Int) ≤ 1024 ^ 2 → (formatSizeParts 2048).2 = "KB") ∧
    ((1024 : Int) ^ 2 < 2048 → (2048 : Int) ≤ 1024 ^ 3 → (formatSizeParts 2048).2 = "MB") ∧
    ((1024 : Int) ^ 3 < 2048 → (formatSizeParts 2048).2 = "GB") ∧
    (0 ≤ (formatSizeParts 2048).1.1 ∧ 0 < (formatSizeParts 2048).1.2) ∧
    (formatSizeParts 2048).2 ∈ ["B", "KB", "MB", "GB"] ∧
    (∃ a k, k < 1000 ∧
      formatSize 2048 = natToDecimal a ++ "." ++ pad3 k ++ " " ++ (formatSizeParts 2048).2) ∧
    '-' ∉ (formatSize 2048).toList :=
  formatSize_unit_selection 2048 (by norm_num)

/-! ## Claim C6 — parseSize unit table and accepted magnitudes -/

/-- Scanning for a predicate over a list whose prefix all satisfies it and
whose next element fails it takes exactly that prefix. -/
theorem takeWhile_append_cons {α : Type} (p : α → Bool) (a : List α) (x : α) (t : List α)
    (ha : ∀ c ∈ a, p c = true) (hx : p x = false) :
    (a ++ x :: t).takeWhile p = a := by
  induction a with
  | nil => simp [List.takeWhile_cons, hx]
  | cons y ys ih =>
      have hy : p y = true := ha y (List.mem_cons_self y ys)
      simp only [List.cons_append, List.takeWhile_cons, hy, if_true]
      rw [ih (fun c hc => ha c (List.mem_cons_of_mem _ hc))]

/-- The matching `dropWhile` leaves the failing element and everything after
it. -/
theorem dropWhile_append_cons {α : Type} (p : α → Bool) (a : List α) (x : α) (t : List α)
    (ha : ∀ c ∈ a, p c = true) (hx : p x = false) :
    (a ++ x :: t).dropWhile p = x :: t := by
  induction a with
  | nil => simp [List.dropWhile_cons, hx]
  | cons y ys ih =>
      have hy : p y = true := ha y (List.mem_cons_self y ys)
      simp only [List.cons_append, List.dropWhile_cons, hy, if_true]
      exact ih (fun c hc => ha c (List.mem_cons_of_mem _ hc))

/-- `takeWhile` keeps a list all of whose elements satisfy the predicate. -/
theorem takeWhile_of_all {α : Type} (p : α → Bool) (l : List α)
    (h : ∀ c ∈ l, p c = true) : l.takeWhile p = l := by
  induction l with
  | nil => rfl
  | cons y ys ih =>
      simp only [List.takeWhile_cons, h y (List.mem_cons_self y ys), if_true]
      rw [ih (fun c hc => h c (List.mem_cons_of_mem _ hc))]

/-- Truncating division is exact on whole multiples of the decimal scale —
the form Go\'s float64 multiply-then-truncate takes there. -/
theorem tdiv_pow_cancel (z : Int) (d : Nat) : (z * 10 ^ d).tdiv (10 ^ d) = z :=
  Int.mul_tdiv_cancel z (pow_ne_zero d (by norm_num))

/-- How `parseSizeScan` decomposes an input made of a numeric prefix followed
by a non-numeric, non-space unit token. -/
theorem parseSizeScan_on_split (nds : List Char) (m d : Nat) (x : Char) (t : List Char)
    (hnum : ∀ c ∈ nds, numChar c = true) (hdv : decValue nds = some (m, d))
    (hx : numChar x = false) (hxs : x ≠ ' ') (hts : ∀ c ∈ t, c ≠ ' ') :
    parseSizeScan (String.mk (nds ++ x :: t)) =
      (if String.mk (x :: t) = "KB" ∨ String.mk (x :: t) = "K" then
         Except.ok (((m : Int) * 1024).tdiv (10 ^ d))
       else if String.mk (x :: t) = "MB" ∨ String.mk (x :: t) = "Mi" then
         Except.ok (((m : Int) * (1024 * 1024)).tdiv (10 ^ d))
       else if String.mk (x :: t) = "GB" ∨ String.mk (x :: t) = "Gi" then
         Except.ok (((m : Int) * (1024 * 1024 * 1024)).tdiv (10 ^ d))
       else Except.error ("expected data unit to one of (KB,K, MB,Mi, GB,Gi). Found: "
         ++ String.mk (x :: t))) := by
  have htl : (String.mk (nds ++ x :: t)).toList = nds ++ x :: t := rfl
  simp only [parseSizeScan, htl]
  rw [takeWhile_append_cons numChar nds x t hnum hx,
      dropWhile_append_cons numChar nds x t hnum hx]
  rw [List.dropWhile_cons, if_neg (by simpa using hxs)]
  rw [takeWhile_of_all _ (x :: t) ?hall, hdv]
  case hall =>
    intro c hc
    rcases List.mem_cons.mp hc with hc | hc
    · subst hc; simpa using hxs
    · simpa using hts c hc

/-- C6 counterexample: the claim\'s unit table includes `B` with factor 1, but
every `parseSize` in the repository rejects `B`; and the fractional magnitude
`1.5GB` that the claim requires is rejected by the cited main.go variant. -/
theorem parseSize_rejects_unit_b :
    parseSizeScan "10B" =
      Except.error "expected data unit to one of (KB,K, MB,Mi, GB,Gi). Found: B" ∧
    parseSizeAtoi "10B" =
      some (Except.error "expected data unit to one of (KB, MB, GB). Found: 0B") ∧
    parseSizeAtoi "1.5GB" =
      some (Except.error "strconv.Atoi: parsing: invalid syntax") := by
  refine ⟨?_, ?_, ?_⟩ <;> rfl

/-- C6 amended: the fractional `parseSize` (part_001 second half) accepts an
integer or fractional magnitude followed by a unit among
{K, KB, Mi, MB, Gi, GB} and returns the magnitude times the binary factor
(1024, 1024², 1024³ respectively); any other unit token yields the
malformed-unit error, and an unparseable numeric part yields a scan error.
Unit `B` is accepted by no variant, and the substring variants accept only
integer magnitudes with units {KB, MB, GB}.  A magnitude `m / 10^d` times
factor `f` that is a whole number `z` parses to exactly `z`; the `0 ≤ z` and
`z < 2 ^ 53` bounds keep the claim inside the range where Go\'s float64
evaluation is exact. -/
theorem parseSize_units_amended :
    (∀ (nds : List Char) (m d : Nat) (u : String) (f z : Int),
      nds ≠ [] → (∀ c ∈ nds, numChar c = true) → decValue nds = some (m, d) →
      (u, f) ∈ unitPairsScan → (m : Int) * f = z * 10 ^ d → 0 ≤ z → z < 2 ^ 53 →
      parseSizeScan (String.mk (nds ++ u.toList)) = Except.ok z) ∧
    (∀ (nds : List Char) (m d : Nat) (x : Char) (t : List Char),
      (∀ c ∈ nds, numChar c = true) → decValue nds = some (m, d) →
      numChar x = false → x ≠ ' ' → (∀ c ∈ t, c ≠ ' ') →
      String.mk (x :: t) ∉ unitPairsScan.map Prod.fst →
      parseSizeScan (String.mk (nds ++ x :: t)) =
        Except.error ("expected data unit to one of (KB,K, MB,Mi, GB,Gi). Found: "
          ++ String.mk (x :: t))) ∧
    (∀ s : String, decValue (s.toList.takeWhile numChar) = none →
      parseSizeScan s = Except.error "input does not match format") := by
  refine ⟨?_, ?_, ?_⟩
  · intro nds m d u f z hne hnum hdv hu hmul hz0 hz53
    have hmem : u = "K" ∧ f = 1024 ∨ u = "KB" ∧ f = 1024 ∨
        u = "Mi" ∧ f = 1024 * 1024 ∨ u = "MB" ∧ f = 1024 * 1024 ∨
        u = "Gi" ∧ f = 1024 * 1024 * 1024 ∨ u = "GB" ∧ f = 1024 * 1024 * 1024 := by
      simpa [unitPairsScan, Prod.ext_iff] using hu
    rcases hmem with ⟨hu1, hf1⟩ | ⟨hu1, hf1⟩ | ⟨hu1, hf1⟩ | ⟨hu1, hf1⟩ |
      ⟨hu1, hf1⟩ | ⟨hu1, hf1⟩ <;> subst hu1 <;> subst hf1
    · show parseSizeScan (String.mk (nds ++ 'K' :: [])) = Except.ok z
      rw [parseSizeScan_on_split nds m d 'K' [] hnum hdv (by decide) (by decide) (by decide),
        if_pos (by decide), hmul, tdiv_pow_cancel]
    · show parseSizeScan (String.mk (nds ++ 'K' :: ['B'])) = Except.ok z
      rw [parseSizeScan_on_split nds m d 'K' ['B'] hnum hdv (by decide) (by decide) (by decide),
        if_pos (by decide), hmul, tdiv_pow_cancel]
    · show parseSizeScan (String.mk (nds ++ 'M' :: ['i'])) = Except.ok z
      rw [parseSizeScan_on_split nds m d 'M' ['i'] hnum hdv (by decide) (by decide) (by decide),
        if_neg (by decide), if_pos (by decide), hmul, tdiv_pow_cancel]
    · show parseSizeScan (String.mk (nds ++ 'M' :: ['B'])) = Except.ok z
      rw [parseSizeScan_on_split nds m d 'M' ['B'] hnum hdv (by decide) (by decide) (by decide),
        if_neg (by decide), if_pos (by decide), hmul, tdiv_pow_cancel]
    · show parseSizeScan (String.mk (nds ++ 'G' :: ['i'])) = Except.ok z
      rw [parseSizeScan_on_split nds m d 'G' ['i'] hnum hdv (by decide) (by decide) (by decide),
        if_neg (by decide), if_neg (by decide), if_pos (by decide), hmul, tdiv_pow_cancel]
    · show parseSizeScan (String.mk (nds ++ 'G' :: ['B'])) = Except.ok z
      rw [parseSizeScan_on_split nds m d 'G' ['B'] hnum hdv (by decide) (by decide) (by decide),
        if_neg (by decide), if_neg (by decide), if_pos (by decide), hmul, tdiv_pow_cancel]
  · intro nds m d x t hnum hdv hx hxs hts hnot
    rw [parseSizeScan_on_split nds m d x t hnum hdv hx hxs hts]
    simp only [unitPairsScan, List.map_cons, List.map_nil, List.mem_cons,
      List.not_mem_nil, or_false, not_or] at hnot
    obtain ⟨n1, n2, n3, n4, n5, n6⟩ := hnot
    rw [if_neg (by tauto), if_neg (by tauto), if_neg (by tauto)]
  · intro s h
    simp only [parseSizeScan, h]

/-- Witness for C6 (amended): `1.5GB` parses to 1610612736 bytes under the
fractional variant, `10XB` hits the malformed-unit error, and a unit-first
string hits the scan error. -/
theorem parseSize_units_amended_witness :
    parseSizeScan (String.mk ("1.5".toList ++ "GB".toList)) = Except.ok 1610612736 ∧
    parseSizeScan (String.mk ("10".toList ++ 'X' :: ['B'])) =
      Except.error ("expected data unit to one of (KB,K, MB,Mi, GB,Gi). Found: "
        ++ String.mk ('X' :: ['B'])) ∧
    parseSizeScan "KB10" = Except.error "input does not match format" := by
  refine ⟨parseSize_units_amended.1 "1.5".toList 15 1 "GB" (1024 * 1024 * 1024)
      1610612736 (by decide) (by decide) (by decide) (by decide) (by decide)
      (by decide) (by decide),
    parseSize_units_amended.2.1 "10".toList 10 0 'X' ['B'] (by decide) (by decide)
      (by decide) (by decide) (by decide) (by decide),
    parseSize_units_amended.2.2 "KB10" (by decide)⟩

/-! ## Claim C7 — parse/format round-trip -/

/-- The rendered digits of `n` read back as `n` (the fuel bound is ample). -/
theorem digitsVal_natDigitsRevAux (fuel : Nat) : ∀ n, n < fuel →
    digitsVal (natDigitsRevAux n fuel).reverse = n := by
  induction fuel with
  | zero => intro n h; omega
  | succ f ih =>
      intro n h
      rw [natDigitsRevAux]
      split
      · next h10 =>
          simp only [List.reverse_singleton, digitsVal, List.foldl_cons, List.foldl_nil]
          rw [(char_ofNat_digit n h10).2]
          omega
      · next h10 =>
          rw [List.reverse_cons]
          simp only [digitsVal, List.foldl_append, List.foldl_cons, List.foldl_nil]
          have hrec : digitsVal (natDigitsRevAux (n / 10) f).reverse = n / 10 :=
            ih (n / 10) (by omega)
          simp only [digitsVal] at hrec
          rw [hrec, (char_ofNat_digit (n % 10) (by omega)).2]
          omega

/-- The rendered digits of `n` read back as `n`. -/
theorem digitsVal_natDigitsRev (n : Nat) : digitsVal (natDigitsRev n).reverse = n :=
  digitsVal_natDigitsRevAux (n + 1) n (by omega)

/-- A numeral always has at least one digit. -/
theorem natDigitsRev_ne_nil (n : Nat) : (natDigitsRev n).reverse ≠ [] := by
  rw [natDigitsRev, natDigitsRevAux]
  split <;> simp

/-- The three padded digits of `k < 1000` read back as `k`. -/
theorem digitsVal_pad3 (k : Nat) (hk : k < 1000) : digitsVal (pad3 k).toList = k := by
  show digitsVal [Char.ofNat (48 + k / 100), Char.ofNat (48 + k / 10 % 10),
    Char.ofNat (48 + k % 10)] = k
  simp only [digitsVal, List.foldl_cons, List.foldl_nil]
  rw [(char_ofNat_digit (k / 100) (by omega)).2, (char_ofNat_digit (k / 10 % 10) (by omega)).2,
    (char_ofNat_digit (k % 10) (by omega)).2]
  omega

set_option maxRecDepth 4000 in
/-- The scanner reads a rendered three-decimal numeral back as its scaled
value. -/
theorem decValue_render (a k : Nat) (hk : k < 1000) :
    decValue ((natDigitsRev a).reverse ++ '.' :: (pad3 k).toList) =
      some (a * 1000 + k, 3) := by
  have hdig : ∀ c ∈ (natDigitsRev a).reverse, c.isDigit = true := fun c hc =>
    natDigitsRev_digits a c (List.mem_reverse.mp hc)
  simp only [decValue]
  rw [takeWhile_append_cons _ _ '.' _ hdig (by decide),
      dropWhile_append_cons _ _ '.' _ hdig (by decide)]
  rw [if_neg (natDigitsRev_ne_nil a)]
  show (if (pad3 k).toList.all (fun c => c.isDigit) then
      some (digitsVal (natDigitsRev a).reverse * 10 ^ (pad3 k).toList.length +
        digitsVal (pad3 k).toList, (pad3 k).toList.length)
    else none) = some (a * 1000 + k, 3)
  rw [if_pos (List.all_eq_true.mpr (pad3_digits k hk))]
  rw [digitsVal_natDigitsRev, digitsVal_pad3 k hk]
  rfl

/-- How `parseSizeScan` decomposes an input whose numeric token is followed by
a space and then the unit token. -/
theorem parseSizeScan_spaced (s : String) (nds : List Char) (m d : Nat)
    (y : Char) (ys : List Char) (hs : s.toList = nds ++ ' ' :: y :: ys)
    (hnum : ∀ c ∈ nds, numChar c = true) (hdv : decValue nds = some (m, d))
    (hy : y ≠ ' ') (hys : ∀ c ∈ ys, c ≠ ' ') :
    parseSizeScan s =
      (if String.mk (y :: ys) = "KB" ∨ String.mk (y :: ys) = "K" then
         Except.ok (((m : Int) * 1024).tdiv (10 ^ d))
       else if String.mk (y :: ys) = "MB" ∨ String.mk (y :: ys) = "Mi" then
         Except.ok (((m : Int) * (1024 * 1024)).tdiv (10 ^ d))
       else if String.mk (y :: ys) = "GB" ∨ String.mk (y :: ys) = "Gi" then
         Except.ok (((m : Int) * (1024 * 1024 * 1024)).tdiv (10 ^ d))
       else Except.error ("expected data unit to one of (KB,K, MB,Mi, GB,Gi). Found: "
         ++ String.mk (y :: ys))) := by
  simp only [parseSizeScan, hs]
  rw [takeWhile_append_cons numChar nds ' ' (y :: ys) hnum (by decide),
      dropWhile_append_cons numChar nds ' ' (y :: ys) hnum (by decide)]
  rw [List.dropWhile_cons, if_pos (by decide)]
  rw [List.dropWhile_cons, if_neg (by simpa using hy)]
  rw [takeWhile_of_all _ (y :: ys) ?hall, hdv]
  case hall =>
    intro c hc
    rcases List.mem_cons.mp hc with hc | hc
    · subst hc; simpa using hy
    · simpa using hys c hc

/-- The banker-rounded quotient is within half a divisor of the exact scaled
value. -/
theorem roundEvenDiv_err (a b : Int) (hb : 0 < b) :
    2 * (roundEvenDiv a b * b - a) ≤ b ∧ 2 * (a - roundEvenDiv a b * b) ≤ b := by
  have h3 : a % b = a - a / b * b := by rw [Int.emod_def]; ring
  have h2 : 0 ≤ a % b := Int.emod_nonneg a (by omega)
  have h4 : a % b < b := Int.emod_lt_of_pos a hb
  rw [h3] at h2 h4
  simp only [roundEvenDiv]
  split_ifs <;> constructor <;> nlinarith [h2, h4]

/-- Re-parsing a rendered KB magnitude yields the rounded value scaled back by
1024/1000. -/
theorem parseSizeScan_render_kb (v u : Int) (hv : 0 ≤ v) (hu : 0 < u) :
    parseSizeScan (renderFixed3 v u ++ " KB") =
      Except.ok ((roundEvenDiv (v * 1000) u * 1024).tdiv 1000) := by
  have hM0 : 0 ≤ roundEvenDiv (v * 1000) u :=
    roundEvenDiv_nonneg _ _ (mul_nonneg hv (by norm_num)) hu
  have hKlt : (roundEvenDiv (v * 1000) u).toNat % 1000 < 1000 := by omega
  have hlist : (renderFixed3 v u ++ " KB").toList =
      ((natDigitsRev ((roundEvenDiv (v * 1000) u).toNat / 1000)).reverse ++
        '.' :: (pad3 ((roundEvenDiv (v * 1000) u).toNat % 1000)).toList)
        ++ ' ' :: 'K' :: ['B'] := by
    rw [renderFixed3_of_nonneg v u hv hu]
    simp only [String.toList, String.data_append, natToDecimal]
    simp [List.append_assoc]
  rw [parseSizeScan_spaced _ _
      ((roundEvenDiv (v * 1000) u).toNat / 1000 * 1000 +
        (roundEvenDiv (v * 1000) u).toNat % 1000) 3 'K' ['B'] hlist
      ?hnum (decValue_render _ _ hKlt) (by decide) (by decide)]
  case hnum =>
    intro c hc
    rcases List.mem_append.mp hc with hc | hc
    · have := natDigitsRev_digits _ c (List.mem_reverse.mp hc)
      simp [numChar, this]
    · rcases List.mem_cons.mp hc with hc | hc
      · subst hc; decide
      · have := pad3_digits _ hKlt c hc
        simp [numChar, this]
  rw [if_pos (by decide)]
  have hcast : (((roundEvenDiv (v * 1000) u).toNat / 1000 * 1000 +
      (roundEvenDiv (v * 1000) u).toNat % 1000 : Nat) : Int) = roundEvenDiv (v * 1000) u := by
    omega
  rw [hcast]
  norm_num

/-- Re-parsing a rendered MB magnitude. -/
theorem parseSizeScan_render_mb (v u : Int) (hv : 0 ≤ v) (hu : 0 < u) :
    parseSizeScan (renderFixed3 v u ++ " MB") =
      Except.ok ((roundEvenDiv (v * 1000) u * (1024 * 1024)).tdiv 1000) := by
  have hM0 : 0 ≤ roundEvenDiv (v * 1000) u :=
    roundEvenDiv_nonneg _ _ (mul_nonneg hv (by norm_num)) hu
  have hKlt : (roundEvenDiv (v * 1000) u).toNat % 1000 < 1000 := by omega
  have hlist : (renderFixed3 v u ++ " MB").toList =
      ((natDigitsRev ((roundEvenDiv (v * 1000) u).toNat / 1000)).reverse ++
        '.' :: (pad3 ((roundEvenDiv (v * 1000) u).toNat % 1000)).toList)
        ++ ' ' :: 'M' :: ['B'] := by
    rw [renderFixed3_of_nonneg v u hv hu]
    simp only [String.toList, String.data_append, natToDecimal]
    simp [List.append_assoc]
  rw [parseSizeScan_spaced _ _
      ((roundEvenDiv (v * 1000) u).toNat / 1000 * 1000 +
        (roundEvenDiv (v * 1000) u).toNat % 1000) 3 'M' ['B'] hlist
      ?hnum (decValue_render _ _ hKlt) (by decide) (by decide)]
  case hnum =>
    intro c hc
    rcases List.mem_append.mp hc with hc | hc
    · have := natDigitsRev_digits _ c (List.mem_reverse.mp hc)
      simp [numChar, this]
    · rcases List.mem_cons.mp hc with hc | hc
      · subst hc; decide
      · have := pad3_digits _ hKlt c hc
        simp [numChar, this]
  rw [if_neg (by decide), if_pos (by decide)]
  have hcast : (((roundEvenDiv (v * 1000) u).toNat / 1000 * 1000 +
      (roundEvenDiv (v * 1000) u).toNat % 1000 : Nat) : Int) = roundEvenDiv (v * 1000) u := by
    omega
  rw [hcast]
  norm_num

/-- Re-parsing a rendered GB magnitude. -/
theorem parseSizeScan_render_gb (v u : Int) (hv : 0 ≤ v) (hu : 0 < u) :
    parseSizeScan (renderFixed3 v u ++ " GB") =
      Except.ok ((roundEvenDiv (v * 1000) u * (1024 * 1024 * 1024)).tdiv 1000) := by
  have hM0 : 0 ≤ roundEvenDiv (v * 1000) u :=
    roundEvenDiv_nonneg _ _ (mul_nonneg hv (by norm_num)) hu
  have hKlt : (roundEvenDiv (v * 1000) u).toNat % 1000 < 1000 := by omega
  have hlist : (renderFixed3 v u ++ " GB").toList =
      ((natDigitsRev ((roundEvenDiv (v * 1000) u).toNat / 1000)).reverse ++
        '.' :: (pad3 ((roundEvenDiv (v * 1000) u).toNat % 1000)).toList)
        ++ ' ' :: 'G' :: ['B'] := by
    rw [renderFixed3_of_nonneg v u hv hu]
    simp only [String.toList, String.data_append, natToDecimal]
    simp [List.append_assoc]
  rw [parseSizeScan_spaced _ _
      ((roundEvenDiv (v * 1000) u).toNat / 1000 * 1000 +
        (roundEvenDiv (v * 1000) u).toNat % 1000) 3 'G' ['B'] hlist
      ?hnum (decValue_render _ _ hKlt) (by decide) (by decide)]
  case hnum =>
    intro c hc
    rcases List.mem_append.mp hc with hc | hc
    · have := natDigitsRev_digits _ c (List.mem_reverse.mp hc)
      simp [numChar, this]
    · rcases List.mem_cons.mp hc with hc | hc
      · subst hc; decide
      · have := pad3_digits _ hKlt c hc
        simp [numChar, this]
  rw [if_neg (by decide), if_neg (by decide), if_pos (by decide)]
  have hcast : (((roundEvenDiv (v * 1000) u).toNat / 1000 * 1000 +
      (roundEvenDiv (v * 1000) u).toNat % 1000 : Nat) : Int) = roundEvenDiv (v * 1000) u := by
    omega
  rw [hcast]
  norm_num

/-- C7 counterexample: the round-trip fails outright at `s = "1KB"` — the 1024
bytes it denotes format as `"1024.000 B"`, whose unit `B` every `parseSize`
rejects; and under the cited main.go `parseSize` the formatted text (a decimal
point and a space in its numeric part) is never re-parseable at all, shown at
`s = "10KB"`. -/
theorem roundtrip_fails_at_unit_b :
    parseSizeScan "1KB" = Except.ok 1024 ∧
    parseSizeScan (formatSize 1024) =
      Except.error "expected data unit to one of (KB,K, MB,Mi, GB,Gi). Found: B" ∧
    parseSizeAtoi "10KB" = some (Except.ok 10240) ∧
    parseSizeAtoi (formatSize 10240) =
      some (Except.error "strconv.Atoi: parsing: invalid syntax") := by
  refine ⟨rfl, rfl, rfl, rfl⟩

/-- C7 amended: with the fractional `parseSize` variant, for every size string
`s` parsing to more than 1024 bytes, re-parsing `formatSize(parseSize(s))`
succeeds and returns `parseSize(s)` up to the three-decimal display rounding —
within `⌊U/2000⌋ + 1` bytes for display unit factor `U` (1 byte for KB, 525
for MB, 536871 for GB).  Values of at most 1024 bytes format with unit `B`,
which `parseSize` rejects (see the counterexample), and the integer substring
variants re-parse no formatted text.  The `v < 2 ^ 53` bound keeps the claim
where Go float64 arithmetic is exact. -/
theorem roundtrip_amended (s : String) (v : Int)
    (hp : parseSizeScan s = Except.ok v) (h1 : 1024 < v) (h53 : v < 2 ^ 53) :
    ∃ r : Int, parseSizeScan (formatSize v) = Except.ok r ∧
      (r - v).natAbs ≤ roundTripSlack v := by
  have hv0 : (0 : Int) ≤ v := by omega
  by_cases hKB : v ≤ OneMB
  · have hparts : formatSizeParts v = ((v, OneKB), "KB") := by
      rw [formatSizeParts, if_neg (by simp only [OneKB]; omega), if_pos hKB]
    have hfs : formatSize v = renderFixed3 v OneKB ++ " KB" := by
      rw [formatSize, hparts]
      show renderFixed3 v OneKB ++ " " ++ "KB" = renderFixed3 v OneKB ++ " KB"
      rw [String.append_assoc]
      exact congrArg (fun z => renderFixed3 v OneKB ++ z) rfl
    refine ⟨(roundEvenDiv (v * 1000) OneKB * 1024).tdiv 1000, ?_, ?_⟩
    · rw [hfs]
      exact parseSizeScan_render_kb v OneKB hv0 (by norm_num [OneKB])
    · have hM0 : 0 ≤ roundEvenDiv (v * 1000) OneKB :=
        roundEvenDiv_nonneg _ _ (by omega) (by norm_num [OneKB])
      have herr := roundEvenDiv_err (v * 1000) OneKB (by norm_num [OneKB])
      rw [Int.tdiv_eq_ediv (mul_nonneg hM0 (by norm_num)) (by norm_num)]
      rw [roundTripSlack, if_pos hKB]
      simp only [OneKB, OneMB, OneGB] at herr hM0 hKB ⊢
      omega
  · by_cases hMB : v ≤ OneGB
    · have hparts : formatSizeParts v = ((v, OneMB), "MB") := by
        rw [formatSizeParts, if_neg (by simp only [OneKB]; omega),
          if_neg (by omega), if_pos hMB]
      have hfs : formatSize v = renderFixed3 v OneMB ++ " MB" := by
        rw [formatSize, hparts]
        show renderFixed3 v OneMB ++ " " ++ "MB" = renderFixed3 v OneMB ++ " MB"
        rw [String.append_assoc]
        exact congrArg (fun z => renderFixed3 v OneMB ++ z) rfl
      refine ⟨(roundEvenDiv (v * 1000) OneMB * (1024 * 1024)).tdiv 1000, ?_, ?_⟩
      · rw [hfs]
        exact parseSizeScan_render_mb v OneMB hv0 (by norm_num [OneMB])
      · have hM0 : 0 ≤ roundEvenDiv (v * 1000) OneMB :=
          roundEvenDiv_nonneg _ _ (by omega) (by norm_num [OneMB])
        have herr := roundEvenDiv_err (v * 1000) OneMB (by norm_num [OneMB])
        rw [Int.tdiv_eq_ediv (mul_nonneg hM0 (by norm_num)) (by norm_num)]
        rw [roundTripSlack, if_neg (by simp only [OneMB] at hKB ⊢; omega), if_pos hMB]
        simp only [OneKB, OneMB, OneGB] at herr hM0 hKB hMB ⊢
        omega
    · have hparts : formatSizeParts v = ((v, OneGB), "GB") := by
        rw [formatSizeParts, if_neg (by simp only [OneKB]; omega),
          if_neg (by omega), if_neg (by omega)]
      have hfs : formatSize v = renderFixed3 v OneGB ++ " GB" := by
        rw [formatSize, hparts]
        show renderFixed3 v OneGB ++ " " ++ "GB" = renderFixed3 v OneGB ++ " GB"
        rw [String.append_assoc]
        exact congrArg (fun z => renderFixed3 v OneGB ++ z) rfl
      refine ⟨(roundEvenDiv (v * 1000) OneGB * (1024 * 1024 * 1024)).tdiv 1000, ?_, ?_⟩
      · rw [hfs]
        exact parseSizeScan_render_gb v OneGB hv0 (by norm_num [OneGB])
      · have hM0 : 0 ≤ roundEvenDiv (v * 1000) OneGB :=
          roundEvenDiv_nonneg _ _ (by omega) (by norm_num [OneGB])
        have herr := roundEvenDiv_err (v * 1000) OneGB (by norm_num [OneGB])
        rw [Int.tdiv_eq_ediv (mul_nonneg hM0 (by norm_num)) (by norm_num)]
        rw [roundTripSlack, if_neg (by simp only [OneMB] at hKB ⊢; omega),
          if_neg (by simp only [OneGB] at hMB ⊢; omega)]
        simp only [OneKB, OneMB, OneGB] at herr hM0 hKB hMB ⊢
        omega

/-- Witness for C7 (amended) at `s = "10KB"`, `v = 10240`: the round-trip
returns exactly 10240. -/
theorem roundtrip_amended_witness :
    parseSizeScan (formatSize 10240) = Except.ok 10240 ∧
    ((10240 : Int) - 10240).natAbs ≤ roundTripSlack 10240 := by
  obtain ⟨r, hr1, hr2⟩ := roundtrip_amended "10KB" 10240 rfl (by norm_num) (by norm_num)
  have hre : parseSizeScan (formatSize 10240) = Except.ok 10240 := rfl
  rw [hre] at hr1
  injection hr1 with hr
  subst hr
  exact ⟨hre, hr2⟩

end DataGen
